import Mathlib

/-!
Verification of the orchestration webapp (`src/webapp/static/main.js`).

The file shallowly embeds the browser-side orchestrator:
* a small JSON value type models the dynamically typed payloads that the
  JavaScript inspects (`data.result.edits`, `parsed.edits || []`, truthiness);
* the Cross-Check Presenter (`renderCrosscheck`, `escapeHtml`, and the
  DOM-reading extraction at the top of `fixUsingCross`) becomes pure
  functions over an explicit `Display` record;
* each workflow function (`analyze`, `applyFixes`, `fixUsingCross`,
  `visionSubmit`) becomes a function from an `Oracle` (the remote services,
  each call either throwing — a network/parse failure — or returning a
  response record) and a `PageState` to a `FlowResult`: the ordered trace of
  observable events, the final page state, and whether an unhandled
  exception escaped.
-/

namespace Debugger

/-- JSON-like values, modelling the dynamically typed JavaScript payloads. -/
inductive Json where
  | null
  | bool (b : Bool)
  | num (n : Int)
  | str (s : String)
  | arr (elems : List Json)
  | obj (fields : List (String × Json))

/-- Property access `j.k`: `none` models JavaScript `undefined`
(missing field, or access on a non-object). -/
def jsGet : Json → String → Option Json
  | Json.obj fs, k => fs.lookup k
  | _, _ => Option.none

/-- JavaScript truthiness of a value. -/
def truthy : Json → Bool
  | Json.null => false
  | Json.bool b => b
  | Json.num n => decide (n ≠ 0)
  | Json.str s => decide (s ≠ "")
  | Json.arr _ => true
  | Json.obj _ => true

/-- `x || d` where `x` is a possibly-undefined property. -/
def jsOr (x : Option Json) (d : Json) : Json :=
  match x with
  | some j => if truthy j then j else d
  | none => d

/-- `s || d` for strings: `""` models both the empty string and `undefined`. -/
def orUnknown (s : String) : String :=
  if s = "" then "unknown" else s

/-- `Array.isArray(j)`. -/
def jsIsArr : Json → Bool
  | Json.arr _ => true
  | _ => false

/-- `j.length` of an array (0 otherwise; only applied to arrays in the flows). -/
def jsArrLen : Json → Nat
  | Json.arr l => l.length
  | _ => 0

/-- `(data.result && data.result.edits) ? data.result.edits : []`
(main.js line 35). -/
def analyzeEdits (result : Json) : Json :=
  if truthy result then jsOr (jsGet result "edits") (Json.arr []) else Json.arr []

/-- `Array.isArray(edits) && edits.length > 0` (main.js line 36). -/
def editsNonempty (e : Json) : Bool :=
  jsIsArr e && decide (0 < jsArrLen e)

/-- `visData.edits && Array.isArray(visData.edits.edits) && visData.edits.edits.length`
(main.js line 389). -/
def visionHasEdits (e : Json) : Bool :=
  truthy e &&
    (match jsGet e "edits" with
     | some (Json.arr l) => decide (0 < l.length)
     | _ => false)

/-- The inner `visData.edits.edits` array forwarded to `/api/apply`
(main.js line 393). -/
def visionEditsArr (e : Json) : Json :=
  (jsGet e "edits").getD Json.null

/-- JavaScript `String.prototype.toLowerCase`, modelled charwise. -/
def toLowerStr (s : String) : String := String.mk (s.data.map Char.toLower)

/-- JavaScript `String.prototype.trim`: strip leading and trailing
whitespace. -/
def jsTrim (s : String) : String :=
  String.mk (((s.data.dropWhile Char.isWhitespace).reverse.dropWhile Char.isWhitespace).reverse)

/-- The character-level substitution performed by `escapeHtml`
(main.js line 224): `&`, `<`, `>`, `"` become their HTML entities,
every other character is kept. -/
def escChar (c : Char) : List Char :=
  if c = '&' then ['&', 'a', 'm', 'p', ';']
  else if c = '<' then ['&', 'l', 't', ';']
  else if c = '>' then ['&', 'g', 't', ';']
  else if c = '"' then ['&', 'q', 'u', 'o', 't', ';']
  else [c]

/-- `escapeHtml` (main.js lines 223-225). -/
def escapeHtml (s : String) : String := String.mk (s.data.flatMap escChar)

/-- Entity decoding performed by the browser when the escaped markup is
parsed and later read back through `textContent`; decodes exactly the
entities `escapeHtml` can produce and keeps everything else. -/
def unescChars : List Char → List Char
  | [] => []
  | c :: rest =>
    if c = '&' then
      match rest with
      | 'a' :: 'm' :: 'p' :: ';' :: r => '&' :: unescChars r
      | 'l' :: 't' :: ';' :: r => '<' :: unescChars r
      | 'g' :: 't' :: ';' :: r => '>' :: unescChars r
      | 'q' :: 'u' :: 'o' :: 't' :: ';' :: r => '"' :: unescChars r
      | r => '&' :: unescChars r
    else c :: unescChars rest

/-- `textContent` of an element whose innerHTML was set to `s`. -/
def htmlUnescape (s : String) : String := String.mk (unescChars s.data)

/-- One entry of the `tests` array of a cross-check payload
(`{name, description, status, reason}`; `""` models an absent field,
matching its falsiness in the JavaScript defaults). -/
structure TestOutcome where
  name : String
  description : String
  status : String
  reason : String
deriving DecidableEq

/-- The parsed `/api/crosscheck` response (`data3`): the `ok` flag plus the
report fields read by `renderCrosscheck`.  `counts = none` models an absent
or falsy `payload.counts`. -/
structure CrossResp where
  ok : Bool
  overall : String
  counts : Option (Int × Int)
  summary : String
  tests : List TestOutcome
deriving DecidableEq

/-- One rendered `li.test` entry: the dot's class list and the innerHTML
markup of the name/desc/reason spans (main.js lines 209-218). -/
structure TestEntry where
  dotClasses : List String
  nameMarkup : String
  descMarkup : String
  reasonMarkup : String
deriving DecidableEq

/-- The cross-check modal's DOM state touched by `renderCrosscheck` and read
back by `fixUsingCross`. -/
structure Display where
  badgeText : String
  badgeClasses : List String
  countPassText : String
  countFailText : String
  summaryText : String
  testList : List TestEntry
  modalOpen : Bool
deriving DecidableEq

/-- The empty modal as the page loads. -/
def emptyDisplay : Display :=
  { badgeText := ""
    badgeClasses := ["badge"]
    countPassText := ""
    countFailText := ""
    summaryText := ""
    testList := []
    modalOpen := false }

/-- The `li` built for one test (main.js lines 209-217). -/
def renderTest (t : TestOutcome) : TestEntry :=
  let status := toLowerStr (if t.status = "" then "fail" else t.status)
  { dotClasses := ["dot", status]
    nameMarkup := escapeHtml (if t.name = "" then "Test" else t.name)
    descMarkup := escapeHtml t.description
    reasonMarkup := escapeHtml t.reason }

/-- `renderCrosscheck` (main.js lines 186-221): resets the list and badge
classes, writes badge/counts/summary, appends one entry per test, and opens
the modal.  Every field of the prior display is overwritten. -/
def renderCrosscheck (payload : CrossResp) (_prior : Display) : Display :=
  let overall := toLowerStr (if payload.overall = "" then "mixed" else payload.overall)
  let cls := if overall = "pass" then "pass" else if overall = "fail" then "fail" else "mixed"
  let cp := (payload.counts.getD (0, 0)).1
  let cf := (payload.counts.getD (0, 0)).2
  { badgeText := overall
    badgeClasses := ["badge", cls]
    countPassText := toString cp ++ " passed"
    countFailText := toString cf ++ " failed"
    summaryText := payload.summary
    testList := payload.tests.map renderTest
    modalOpen := true }

/-- JavaScript `parseInt(s, 10)`: skip leading whitespace, optional sign,
then the longest digit prefix; `none` models `NaN`. -/
def jsParseInt (s : String) : Option Int :=
  let l := s.data.dropWhile Char.isWhitespace
  let signAndRest : Int × List Char :=
    match l with
    | '-' :: r => (-1, r)
    | '+' :: r => (1, r)
    | _ => (1, l)
  let ds := signAndRest.2.takeWhile Char.isDigit
  if ds.isEmpty then none
  else some (signAndRest.1 * (ds.foldl (fun a c => a * 10 + ((c.toNat : Int) - 48)) 0))

/-- What the operator reads back from one displayed entry
(main.js lines 234-241): span texts (entities decoded by the browser,
then `.trim()`), and `pass`/`fail` from the dot's class list. -/
def extractTest (e : TestEntry) : TestOutcome :=
  { name := jsTrim (htmlUnescape e.nameMarkup)
    description := jsTrim (htmlUnescape e.descMarkup)
    status := if e.dotClasses.contains "pass" then "pass" else "fail"
    reason := jsTrim (htmlUnescape e.reasonMarkup) }

/-- The report reconstructed from the DOM (`{ overall, summary, counts, tests }`,
main.js line 247). -/
structure ExtractedCross where
  overall : String
  summary : String
  countsPass : Int
  countsFail : Int
  tests : List TestOutcome
deriving DecidableEq

/-- The DOM-reading half of `fixUsingCross` (main.js lines 228-247). -/
def extractCross (d : Display) : ExtractedCross :=
  { overall := jsTrim d.badgeText
    summary := jsTrim d.summaryText
    countsPass := (jsParseInt d.countPassText).getD 0
    countsFail := (jsParseInt d.countFailText).getD 0
    tests := d.testList.map extractTest }

/-- The claim's "non-degenerate labels": the overall label and each test's
status are the lowercase, whitespace-stable labels the renderer would emit
itself, and names are non-empty (the renderer substitutes "Test" for an
empty name, and the reader trims every label). -/
def nondegenerate (p : CrossResp) : Prop :=
  p.overall ≠ "" ∧ toLowerStr p.overall = p.overall ∧ jsTrim p.overall = p.overall ∧
  jsTrim p.summary = p.summary ∧
  ∀ t ∈ p.tests,
    t.name ≠ "" ∧ jsTrim t.name = t.name ∧
    jsTrim t.description = t.description ∧
    jsTrim t.reason = t.reason ∧
    (t.status = "pass" ∨ t.status = "fail")

instance (p : CrossResp) : Decidable (nondegenerate p) := by
  unfold nondegenerate
  infer_instance

/-- Parsed `/api/analyze` response: `{ ok, error, result }` with `result`
holding the optional `edits` array. -/
structure AnalyzeResp where
  ok : Bool
  error : String
  result : Json

/-- Parsed `/api/apply` response: `{ ok, error, code }` (`""` models an
absent `code`, matching its falsiness where tested). -/
structure ApplyResp where
  ok : Bool
  error : String
  code : String

/-- Parsed `/api/fix_from_crosscheck` response. -/
structure FixResp where
  ok : Bool
  error : String
  code : String
  edits : Json

/-- Parsed `/api/vision_analyze` response. -/
structure VisionResp where
  ok : Bool
  error : String
  edits : Json
  code : String

/-- Parsed `/api/run` response. -/
structure RunResp where
  ok : Bool
  error : String

/-- The remote services.  Each call is one `fetch` + `res.json()` pair:
`Except.error` models a thrown network or parse failure, `Except.ok` a
parsed response record. -/
structure Oracle where
  analyze : String → String → String → String → Except Unit AnalyzeResp
  apply : String → Json → Except Unit ApplyResp
  crosscheck : String → String → String → Except Unit CrossResp
  fix : String → ExtractedCross → String → String → Except Unit FixResp
  run : String → Except Unit RunResp
  vision : String → String → Option String → String → String → Except Unit VisionResp

/-- Observable events of a workflow run, in program order: remote calls
(with their request payloads), status-signal writes, alerts, editor
(SourceText) replacements, textarea writes, and report renders. -/
inductive Event where
  | callAnalyze (code filename model timeout : String)
  | callApply (code : String) (edits : Json)
  | callCross (code model timeout : String)
  | callFix (code : String) (cross : ExtractedCross) (model timeout : String)
  | callRun (code : String)
  | callVision (code prompt : String) (imageBase64 : Option String) (model timeout : String)
  | notifyShow (msg : String)
  | notifyHide
  | alertMsg (msg : String)
  | setSource (code : String)
  | setEditsBox (j : Json)
  | renderReport (payload : CrossResp)

/-- The page state a workflow run reads and writes: the editor content
(SourceText), the Edits textarea (modelled by the JSON value it displays),
the status signal, and the cross-check modal. -/
structure PageState where
  editorCode : String
  editsBox : Json
  notifyMsg : String
  notifyVisible : Bool
  display : Display

/-- `showNotify` (main.js lines 173-178). -/
def showNotifyS (st : PageState) (msg : String) : PageState :=
  { st with notifyMsg := msg, notifyVisible := true }

/-- `hideNotify` (main.js lines 180-184): only visibility is toggled. -/
def hideNotifyS (st : PageState) : PageState :=
  { st with notifyVisible := false }

/-- Result of one workflow run: its event trace, the final page state, and
whether an unhandled exception escaped the async function. -/
structure FlowResult where
  trace : List Event
  state : PageState
  threw : Bool

def analyzingMsg : String := "Analyzing… Debugger is analyzing the code"
def crossCheckingMsg : String := "Cross-checking… validating with hidden tests"
def applyingMsg : String := "Applying fixes…"
def fixingMsg : String := "Fixing using cross-check…"
def crossUpdatedMsg : String := "Cross-checking updated code…"
def comparingMsg : String := "Comparing UI with screenshot…"
def appliedVisionMsg : String := "Applied vision-based fixes."
def noChangesMsg : String := "No changes suggested from vision."

/-- `analyze` (main.js lines 16-80).  The first fetch/json pair is outside
any try block, so a throw there escapes with the status signal still
visible.  The apply/cross-check chain (lines 38-61) and the no-edits
cross-check (lines 65-78) sit in try/finally blocks whose `finally` hides
the status signal and whose `catch` swallows the exception. -/
def analyze (o : Oracle) (st : PageState) (filename model timeout : String) : FlowResult :=
  let code := st.editorCode
  let st1 := showNotifyS st analyzingMsg
  let tr1 : List Event := [.notifyShow analyzingMsg, .callAnalyze code filename model timeout]
  match o.analyze code filename model timeout with
  | .error _ => ⟨tr1, st1, true⟩
  | .ok data =>
    let st2 := hideNotifyS st1
    let tr2 := tr1 ++ [.notifyHide]
    if data.ok then
      let st3 := { st2 with editsBox := data.result }
      let tr3 := tr2 ++ [.setEditsBox data.result]
      let edits := analyzeEdits data.result
      if editsNonempty edits then
        let st4 := showNotifyS st3 applyingMsg
        let tr4 := tr3 ++ [.notifyShow applyingMsg, .callApply code edits]
        match o.apply code edits with
        | .error _ => ⟨tr4 ++ [.notifyHide], hideNotifyS st4, false⟩
        | .ok data2 =>
          if data2.ok then
            let st5 := showNotifyS { st4 with editorCode := data2.code } crossCheckingMsg
            let tr5 := tr4 ++ [.setSource data2.code, .notifyShow crossCheckingMsg,
              .callCross data2.code model timeout]
            match o.crosscheck data2.code model timeout with
            | .error _ => ⟨tr5 ++ [.notifyHide], hideNotifyS st5, false⟩
            | .ok data3 =>
              if data3.ok then
                ⟨tr5 ++ [.renderReport data3, .notifyHide],
                  hideNotifyS { st5 with display := renderCrosscheck data3 st5.display }, false⟩
              else ⟨tr5 ++ [.notifyHide], hideNotifyS st5, false⟩
          else ⟨tr4 ++ [.notifyHide], hideNotifyS st4, false⟩
      else
        let st4 := showNotifyS st3 crossCheckingMsg
        let tr4 := tr3 ++ [.notifyShow crossCheckingMsg, .callCross code model timeout]
        match o.crosscheck code model timeout with
        | .error _ => ⟨tr4 ++ [.notifyHide], hideNotifyS st4, false⟩
        | .ok data3 =>
          if data3.ok then
            ⟨tr4 ++ [.renderReport data3, .notifyHide],
              hideNotifyS { st4 with display := renderCrosscheck data3 st4.display }, false⟩
          else ⟨tr4 ++ [.notifyHide], hideNotifyS st4, false⟩
    else
      ⟨tr2 ++ [.alertMsg ("Analyze error: " ++ data.error)], st2, false⟩

/-- `applyFixes` (main.js lines 82-121).  `parsed` is the outcome of
`JSON.parse` on the Edits textarea (throwing on malformed text); the apply
fetch is unguarded, while the cross-check chain sits in try/finally. -/
def applyFixes (o : Oracle) (st : PageState) (parsed : Except Unit Json)
    (model timeout : String) : FlowResult :=
  let code := st.editorCode
  match parsed with
  | .error _ => ⟨[.alertMsg "Invalid JSON in Edits."], st, false⟩
  | .ok p =>
    let edits := jsOr (jsGet p "edits") (Json.arr [])
    let tr1 : List Event := [.callApply code edits]
    match o.apply code edits with
    | .error _ => ⟨tr1, st, true⟩
    | .ok data =>
      if data.ok then
        let st2 := showNotifyS { st with editorCode := data.code } crossCheckingMsg
        let tr2 := tr1 ++ [.setSource data.code, .notifyShow crossCheckingMsg,
          .callCross data.code model timeout]
        match o.crosscheck data.code model timeout with
        | .error _ => ⟨tr2 ++ [.notifyHide], hideNotifyS st2, false⟩
        | .ok data2 =>
          if data2.ok then
            ⟨tr2 ++ [.renderReport data2, .notifyHide],
              hideNotifyS { st2 with display := renderCrosscheck data2 st2.display }, false⟩
          else ⟨tr2 ++ [.notifyHide], hideNotifyS st2, false⟩
      else ⟨tr1 ++ [.alertMsg ("Apply error: " ++ data.error)], st, false⟩

/-- `fixUsingCross` (main.js lines 227-280): extract the report from the
DOM, call the fix service, replace SourceText and the Edits box when the
response carries them, then cross-check the current editor value; the whole
chain is inside try/finally. -/
def fixUsingCross (o : Oracle) (st : PageState) (model timeout : String) : FlowResult :=
  let cross := extractCross st.display
  let code := st.editorCode
  let st1 := showNotifyS st fixingMsg
  let tr1 : List Event := [.notifyShow fixingMsg, .callFix code cross model timeout]
  match o.fix code cross model timeout with
  | .error _ => ⟨tr1 ++ [.notifyHide], hideNotifyS st1, false⟩
  | .ok data =>
    if data.ok then
      let st2 := if data.code ≠ "" then { st1 with editorCode := data.code } else st1
      let tr2 := tr1 ++ (if data.code ≠ "" then [Event.setSource data.code] else [])
      let st3 := if truthy data.edits then { st2 with editsBox := data.edits } else st2
      let tr3 := tr2 ++ (if truthy data.edits then [Event.setEditsBox data.edits] else [])
      let st4 := showNotifyS st3 crossUpdatedMsg
      let tr4 := tr3 ++ [.notifyShow crossUpdatedMsg, .callCross st3.editorCode model timeout]
      match o.crosscheck st3.editorCode model timeout with
      | .error _ => ⟨tr4 ++ [.notifyHide], hideNotifyS st4, false⟩
      | .ok data2 =>
        if data2.ok then
          ⟨tr4 ++ [.renderReport data2, .notifyHide],
            hideNotifyS { st4 with display := renderCrosscheck data2 st4.display }, false⟩
        else ⟨tr4 ++ [.notifyHide], hideNotifyS st4, false⟩
    else ⟨tr1 ++ [.alertMsg ("Fix error: " ++ orUnknown data.error), .notifyHide],
      hideNotifyS st1, false⟩

/-- `lastScreenshotBase64 || null` (main.js line 363). -/
def imgOrNull (o : Option String) : Option String :=
  match o with
  | some s => if s = "" then none else some s
  | none => none

/-- `visionSubmit` (main.js lines 358-406): run first (its `ok=false` only
surfaces a status message), then the vision call; when the vision result
carries a non-empty edits array, apply it — without any cross-check after
the mutation.  None of the fetches is inside a try block, so any thrown
call escapes. -/
def visionSubmit (o : Oracle) (st : PageState) (model timeout prompt : String)
    (lastScreenshot : Option String) : FlowResult :=
  let code := st.editorCode
  let imageBase64 := imgOrNull lastScreenshot
  let tr1 : List Event := [.callRun code]
  match o.run code with
  | .error _ => ⟨tr1, st, true⟩
  | .ok runData =>
    let runFail := "Run error: " ++ orUnknown runData.error
    let st2 := if runData.ok then st else showNotifyS st runFail
    let tr2 := tr1 ++ (if runData.ok then [] else [Event.notifyShow runFail])
    let st3 := showNotifyS st2 comparingMsg
    let tr3 := tr2 ++ [.notifyShow comparingMsg,
      .callVision code prompt imageBase64 model timeout]
    match o.vision code prompt imageBase64 model timeout with
    | .error _ => ⟨tr3, st3, true⟩
    | .ok visData =>
      if visData.ok then
        if visionHasEdits visData.edits then
          let st4 := { st3 with editsBox := visData.edits }
          let tr4 := tr3 ++ [.setEditsBox visData.edits,
            .callApply code (visionEditsArr visData.edits)]
          match o.apply code (visionEditsArr visData.edits) with
          | .error _ => ⟨tr4, st4, true⟩
          | .ok applyData =>
            if applyData.ok ∧ applyData.code ≠ "" then
              let st5 := showNotifyS { st4 with editorCode := applyData.code } appliedVisionMsg
              ⟨tr4 ++ [.setSource applyData.code, .notifyShow appliedVisionMsg, .notifyHide],
                hideNotifyS st5, false⟩
            else if applyData.ok then ⟨tr4 ++ [.notifyHide], hideNotifyS st4, false⟩
            else ⟨tr4 ++ [.alertMsg ("Apply error: " ++ orUnknown applyData.error), .notifyHide],
              hideNotifyS st4, false⟩
        else
          ⟨tr3 ++ [.notifyShow noChangesMsg, .notifyHide],
            hideNotifyS (showNotifyS st3 noChangesMsg), false⟩
      else
        ⟨tr3 ++ [.notifyHide, .alertMsg ("Vision analyze error: " ++ orUnknown visData.error)],
          hideNotifyS st3, false⟩

/-- Is the event one of the six remote calls? -/
def isRemoteCall : Event → Bool
  | .callAnalyze _ _ _ _ => true
  | .callApply _ _ => true
  | .callCross _ _ _ => true
  | .callFix _ _ _ _ => true
  | .callRun _ => true
  | .callVision _ _ _ _ _ => true
  | _ => false

def isApplyCall : Event → Bool
  | .callApply _ _ => true
  | _ => false

def isCrossCall : Event → Bool
  | .callCross _ _ _ => true
  | _ => false

def isVisionCall : Event → Bool
  | .callVision _ _ _ _ _ => true
  | _ => false

def isRenderEvent : Event → Bool
  | .renderReport _ => true
  | _ => false

/-- A cross-check call carrying exactly `code`. -/
def crossCallTo (code : String) : Event → Bool
  | .callCross c _ _ => c == code
  | _ => false

def showOf (msg : String) : Event → Bool
  | .notifyShow m => m == msg
  | _ => false

def setSourceOf (code : String) : Event → Bool
  | .setSource c => c == code
  | _ => false

/-- Every SourceText replacement in the trace is followed (later in the
same run) by a cross-check call carrying the replaced text. -/
def mutationsChecked : List Event → Bool
  | [] => true
  | .setSource c :: rest => rest.any (crossCallTo c) && mutationsChecked rest
  | _ :: rest => mutationsChecked rest

/-- The code argument of the first cross-check call of the trace, if any. -/
def firstCrossCode : List Event → Option String
  | [] => none
  | .callCross c _ _ :: _ => some c
  | _ :: rest => firstCrossCode rest

/-- After every SourceText replacement there is a later cross-check call,
and the first one carries exactly the replaced text. -/
def checksFreshCode : List Event → Bool
  | [] => true
  | .setSource c :: rest =>
    (match firstCrossCode rest with
     | some c2 => c2 == c
     | none => false) && checksFreshCode rest
  | _ :: rest => checksFreshCode rest

def alertOf (msg : String) : Event → Bool
  | .alertMsg m => m == msg
  | _ => false

/-- A vision call carrying exactly this request. -/
def visionCallWith (code prompt : String) (img : Option String) (model timeout : String) :
    Event → Bool
  | .callVision c p i m2 t2 =>
    c == code && p == prompt && i == img && m2 == model && t2 == timeout
  | _ => false

/-- A failed cross-check call: thrown, or answered with `ok=false`. -/
def crossFails (r : Except Unit CrossResp) : Prop :=
  r = Except.error () ∨ ∃ c, r = Except.ok c ∧ c.ok = false

/-- The claim's notion of valid operator-supplied Edit-sequence data,
following the spec's words: a mapping whose `edits` field is itself a
sequence.  Stated for comparison with what `applyFixes` actually checks. -/
def specValidEdits (j : Json) : Bool :=
  match j with
  | Json.obj _ =>
    match jsGet j "edits" with
    | some (Json.arr _) => true
    | _ => false
  | _ => false

/-- A concrete starting page state. -/
def sampleState : PageState :=
  { editorCode := "print(1)"
    editsBox := Json.null
    notifyMsg := ""
    notifyVisible := false
    display := emptyDisplay }

/-- A concrete well-formed cross-check report. -/
def sampleCross : CrossResp :=
  { ok := true
    overall := "pass"
    counts := some (1, 0)
    summary := "all good"
    tests := [{ name := "t1", description := "first", status := "pass", reason := "" }] }

/-- Remote services that all answer successfully; the analysis result
carries an empty edits array. -/
def okOracle : Oracle :=
  { analyze := fun _ _ _ _ => .ok ⟨true, "", Json.obj [("edits", Json.arr [])]⟩
    apply := fun _ _ => .ok ⟨true, "", "fixed"⟩
    crosscheck := fun _ _ _ => .ok sampleCross
    fix := fun _ _ _ _ => .ok ⟨true, "", "fixed2", Json.null⟩
    run := fun _ => .ok ⟨true, ""⟩
    vision := fun _ _ _ _ _ => .ok ⟨true, "", Json.null, ""⟩ }

/-- Like `okOracle` but the analysis call throws (network failure). -/
def analyzeThrowOracle : Oracle :=
  { okOracle with analyze := fun _ _ _ _ => .error () }

/-- Like `okOracle` but the run call throws (network failure). -/
def runThrowOracle : Oracle :=
  { okOracle with run := fun _ => .error () }

/-- Like `okOracle` but the vision call returns a non-empty edits container
and the apply call returns new code. -/
def visionEditsOracle : Oracle :=
  { okOracle with
    vision := fun _ _ _ _ _ =>
      .ok ⟨true, "", Json.obj [("edits", Json.arr [Json.num 1])], ""⟩
    apply := fun _ _ => .ok ⟨true, "", "newcode"⟩ }

/-- Like `okOracle` but every cross-check call throws. -/
def crossFailOracle : Oracle :=
  { okOracle with crosscheck := fun _ _ _ => .error () }

/-- Like `okOracle` but the run call answers `ok=false`. -/
def runFailOracle : Oracle :=
  { okOracle with run := fun _ => .ok ⟨false, "boom"⟩ }

theorem unescChars_amp (l : List Char) :
    unescChars ('&' :: 'a' :: 'm' :: 'p' :: ';' :: l) = '&' :: unescChars l := rfl

theorem unescChars_lt (l : List Char) :
    unescChars ('&' :: 'l' :: 't' :: ';' :: l) = '<' :: unescChars l := rfl

theorem unescChars_gt (l : List Char) :
    unescChars ('&' :: 'g' :: 't' :: ';' :: l) = '>' :: unescChars l := rfl

theorem unescChars_quot (l : List Char) :
    unescChars ('&' :: 'q' :: 'u' :: 'o' :: 't' :: ';' :: l) = '"' :: unescChars l := rfl

theorem unescChars_cons_of_ne (c : Char) (l : List Char) (h : c ≠ '&') :
    unescChars (c :: l) = c :: unescChars l := by
  rw [unescChars.eq_def]
  simp only [if_neg h]

theorem unescChars_flatMap_escChar (l : List Char) :
    unescChars (l.flatMap escChar) = l := by
  induction l with
  | nil => rfl
  | cons c t ih =>
    rw [List.flatMap_cons]
    by_cases h1 : c = '&'
    · subst h1
      have e1 : escChar '&' ++ t.flatMap escChar
          = '&' :: 'a' :: 'm' :: 'p' :: ';' :: t.flatMap escChar := rfl
      rw [e1, unescChars_amp, ih]
    by_cases h2 : c = '<'
    · subst h2
      have e1 : escChar '<' ++ t.flatMap escChar
          = '&' :: 'l' :: 't' :: ';' :: t.flatMap escChar := rfl
      rw [e1, unescChars_lt, ih]
    by_cases h3 : c = '>'
    · subst h3
      have e1 : escChar '>' ++ t.flatMap escChar
          = '&' :: 'g' :: 't' :: ';' :: t.flatMap escChar := rfl
      rw [e1, unescChars_gt, ih]
    by_cases h4 : c = '"'
    · subst h4
      have e1 : escChar '"' ++ t.flatMap escChar
          = '&' :: 'q' :: 'u' :: 'o' :: 't' :: ';' :: t.flatMap escChar := rfl
      rw [e1, unescChars_quot, ih]
    · have e1 : escChar c = [c] := by
        unfold escChar
        rw [if_neg h1, if_neg h2, if_neg h3, if_neg h4]
      rw [e1, List.singleton_append, unescChars_cons_of_ne c _ h1, ih]

theorem htmlUnescape_escapeHtml (s : String) : htmlUnescape (escapeHtml s) = s := by
  cases s with
  | mk data => exact congrArg String.mk (unescChars_flatMap_escChar data)

theorem escChar_mem_ne (c x : Char) (hx : x ∈ escChar c) :
    x ≠ '<' ∧ x ≠ '>' ∧ x ≠ '"' := by
  unfold escChar at hx
  split at hx
  · simp only [List.mem_cons, List.not_mem_nil, or_false] at hx
    rcases hx with h | h | h | h | h <;> subst h <;> exact ⟨by decide, by decide, by decide⟩
  split at hx
  · simp only [List.mem_cons, List.not_mem_nil, or_false] at hx
    rcases hx with h | h | h | h <;> subst h <;> exact ⟨by decide, by decide, by decide⟩
  split at hx
  · simp only [List.mem_cons, List.not_mem_nil, or_false] at hx
    rcases hx with h | h | h | h <;> subst h <;> exact ⟨by decide, by decide, by decide⟩
  split at hx
  · simp only [List.mem_cons, List.not_mem_nil, or_false] at hx
    rcases hx with h | h | h | h | h | h <;> subst h <;> exact ⟨by decide, by decide, by decide⟩
  · rename_i hn1 hn2 hn3 hn4
    simp only [List.mem_singleton] at hx
    subst hx
    exact ⟨hn2, hn3, hn4⟩

theorem escapeHtml_no_markup (s : String) (x : Char) (hx : x ∈ (escapeHtml s).data) :
    x ≠ '<' ∧ x ≠ '>' ∧ x ≠ '"' := by
  have : x ∈ s.data.flatMap escChar := hx
  rw [List.mem_flatMap] at this
  obtain ⟨c, _, hmem⟩ := this
  exact escChar_mem_ne c x hmem

theorem extractTest_renderTest (t : TestOutcome)
    (hname : t.name ≠ "") (hnt : jsTrim t.name = t.name)
    (hdt : jsTrim t.description = t.description)
    (hrt : jsTrim t.reason = t.reason)
    (hst : t.status = "pass" ∨ t.status = "fail") :
    extractTest (renderTest t) = t := by
  rcases t with ⟨name, desc, status, reason⟩
  simp only at hname hnt hdt hrt hst
  rcases hst with h | h <;> subst h
  · simp only [renderTest, extractTest, if_neg hname,
      show toLowerStr (if ("pass" : String) = "" then "fail" else "pass") = "pass" from by decide,
      show (["dot", "pass"] : List String).contains "pass" = true from by decide,
      if_pos, htmlUnescape_escapeHtml, hnt, hdt, hrt]
  · simp only [renderTest, extractTest, if_neg hname,
      show toLowerStr (if ("fail" : String) = "" then "fail" else "fail") = "fail" from by decide,
      show (["dot", "fail"] : List String).contains "pass" = false from by decide,
      Bool.false_eq_true, if_false, htmlUnescape_escapeHtml, hnt, hdt, hrt]

theorem analyze_mutations (o : Oracle) (st : PageState) (f m t : String) :
    mutationsChecked (analyze o st f m t).trace = true ∧
    checksFreshCode (analyze o st f m t).trace = true := by
  rcases hA : o.analyze st.editorCode f m t with _ | data
  · simp [analyze, hA, mutationsChecked, checksFreshCode]
  cases hok : data.ok
  · simp [analyze, hA, hok, mutationsChecked, checksFreshCode]
  cases hE : editsNonempty (analyzeEdits data.result)
  · rcases hC : o.crosscheck st.editorCode m t with _ | data3
    · simp [analyze, hA, hok, hE, hC, mutationsChecked, checksFreshCode]
    cases h3 : data3.ok <;>
      simp [analyze, hA, hok, hE, hC, h3, mutationsChecked, checksFreshCode]
  · rcases hP : o.apply st.editorCode (analyzeEdits data.result) with _ | data2
    · simp [analyze, hA, hok, hE, hP, mutationsChecked, checksFreshCode]
    cases h2 : data2.ok
    · simp [analyze, hA, hok, hE, hP, h2, mutationsChecked, checksFreshCode]
    rcases hC : o.crosscheck data2.code m t with _ | data3
    · simp [analyze, hA, hok, hE, hP, h2, hC, mutationsChecked, checksFreshCode,
        crossCallTo, firstCrossCode]
    cases h3 : data3.ok <;>
      simp [analyze, hA, hok, hE, hP, h2, hC, h3, mutationsChecked, checksFreshCode,
        crossCallTo, firstCrossCode]

theorem applyFixes_mutations (o : Oracle) (st : PageState) (p : Except Unit Json)
    (m t : String) :
    mutationsChecked (applyFixes o st p m t).trace = true ∧
    checksFreshCode (applyFixes o st p m t).trace = true := by
  rcases p with _ | p
  · simp [applyFixes, mutationsChecked, checksFreshCode]
  rcases hP : o.apply st.editorCode (jsOr (jsGet p "edits") (Json.arr [])) with _ | data
  · simp [applyFixes, hP, mutationsChecked, checksFreshCode]
  cases h2 : data.ok
  · simp [applyFixes, hP, h2, mutationsChecked, checksFreshCode]
  rcases hC : o.crosscheck data.code m t with _ | data2
  · simp [applyFixes, hP, h2, hC, mutationsChecked, checksFreshCode,
      crossCallTo, firstCrossCode]
  cases h3 : data2.ok <;>
    simp [applyFixes, hP, h2, hC, h3, mutationsChecked, checksFreshCode,
      crossCallTo, firstCrossCode]

theorem fixUsingCross_mutations (o : Oracle) (st : PageState) (m t : String) :
    mutationsChecked (fixUsingCross o st m t).trace = true ∧
    checksFreshCode (fixUsingCross o st m t).trace = true := by
  rcases hF : o.fix st.editorCode (extractCross st.display) m t with _ | data
  · simp [fixUsingCross, hF, mutationsChecked, checksFreshCode]
  cases h2 : data.ok
  · simp [fixUsingCross, hF, h2, mutationsChecked, checksFreshCode]
  by_cases hcode : data.code = ""
  · cases hedits : truthy data.edits <;>
    · rcases hC : o.crosscheck st.editorCode m t with _ | data2
      · simp [fixUsingCross, hF, h2, hcode, hedits, hC, mutationsChecked, checksFreshCode,
          crossCallTo, firstCrossCode, showNotifyS, hideNotifyS]
      cases h3 : data2.ok <;>
        simp [fixUsingCross, hF, h2, hcode, hedits, hC, h3, mutationsChecked, checksFreshCode,
          crossCallTo, firstCrossCode, showNotifyS, hideNotifyS]
  · cases hedits : truthy data.edits <;>
    · rcases hC : o.crosscheck data.code m t with _ | data2
      · simp [fixUsingCross, hF, h2, hcode, hedits, hC, mutationsChecked, checksFreshCode,
          crossCallTo, firstCrossCode, showNotifyS, hideNotifyS]
      cases h3 : data2.ok <;>
        simp [fixUsingCross, hF, h2, hcode, hedits, hC, h3, mutationsChecked, checksFreshCode,
          crossCallTo, firstCrossCode, showNotifyS, hideNotifyS]

theorem visionSubmit_no_cross (o : Oracle) (st : PageState) (m t pr : String)
    (ls : Option String) :
    (visionSubmit o st m t pr ls).trace.all (fun e => !isCrossCall e) = true := by
  rcases hR : o.run st.editorCode with _ | runData
  · simp [visionSubmit, hR, isCrossCall]
  cases hro : runData.ok <;>
  · rcases hV : o.vision st.editorCode pr (imgOrNull ls) m t with _ | visData
    · simp [visionSubmit, hR, hro, hV, isCrossCall]
    cases hvo : visData.ok
    · simp [visionSubmit, hR, hro, hV, hvo, isCrossCall]
    cases hE : visionHasEdits visData.edits
    · simp [visionSubmit, hR, hro, hV, hvo, hE, isCrossCall]
    rcases hP : o.apply st.editorCode (visionEditsArr visData.edits) with _ | applyData
    · simp [visionSubmit, hR, hro, hV, hvo, hE, hP, isCrossCall]
    cases hao : applyData.ok
    · simp [visionSubmit, hR, hro, hV, hvo, hE, hP, hao, isCrossCall]
    by_cases hcode : applyData.code = "" <;>
      simp [visionSubmit, hR, hro, hV, hvo, hE, hP, hao, hcode, isCrossCall]

theorem analyze_notify (o : Oracle) (st : PageState) (f m t : String)
    (h : (analyze o st f m t).threw = false) :
    (analyze o st f m t).state.notifyVisible = false := by
  rcases hA : o.analyze st.editorCode f m t with _ | data
  · simp [analyze, hA] at h
  cases hok : data.ok
  · simp [analyze, hA, hok, hideNotifyS, showNotifyS]
  cases hE : editsNonempty (analyzeEdits data.result)
  · rcases hC : o.crosscheck st.editorCode m t with _ | data3
    · simp [analyze, hA, hok, hE, hC, hideNotifyS, showNotifyS]
    cases h3 : data3.ok <;>
      simp [analyze, hA, hok, hE, hC, h3, hideNotifyS, showNotifyS]
  · rcases hP : o.apply st.editorCode (analyzeEdits data.result) with _ | data2
    · simp [analyze, hA, hok, hE, hP, hideNotifyS, showNotifyS]
    cases h2 : data2.ok
    · simp [analyze, hA, hok, hE, hP, h2, hideNotifyS, showNotifyS]
    rcases hC : o.crosscheck data2.code m t with _ | data3
    · simp [analyze, hA, hok, hE, hP, h2, hC, hideNotifyS, showNotifyS]
    cases h3 : data3.ok <;>
      simp [analyze, hA, hok, hE, hP, h2, hC, h3, hideNotifyS, showNotifyS]

theorem applyFixes_notify (o : Oracle) (st : PageState) (p : Except Unit Json)
    (m t : String) (h0 : st.notifyVisible = false)
    (h : (applyFixes o st p m t).threw = false) :
    (applyFixes o st p m t).state.notifyVisible = false := by
  rcases p with _ | p
  · simpa [applyFixes] using h0
  rcases hP : o.apply st.editorCode (jsOr (jsGet p "edits") (Json.arr [])) with _ | data
  · simp [applyFixes, hP] at h
  cases h2 : data.ok
  · simpa [applyFixes, hP, h2] using h0
  rcases hC : o.crosscheck data.code m t with _ | data2
  · simp [applyFixes, hP, h2, hC, hideNotifyS, showNotifyS]
  cases h3 : data2.ok <;>
    simp [applyFixes, hP, h2, hC, h3, hideNotifyS, showNotifyS]

theorem fixUsingCross_notify (o : Oracle) (st : PageState) (m t : String) :
    (fixUsingCross o st m t).state.notifyVisible = false := by
  rcases hF : o.fix st.editorCode (extractCross st.display) m t with _ | data
  · simp [fixUsingCross, hF, hideNotifyS, showNotifyS]
  cases h2 : data.ok
  · simp [fixUsingCross, hF, h2, hideNotifyS, showNotifyS]
  by_cases hcode : data.code = "" <;>
  · cases hedits : truthy data.edits <;>
    · rcases hC : o.crosscheck (if hcode2 : data.code = "" then st.editorCode else data.code)
        m t with _ | data2
      · by_cases hcode3 : data.code = "" <;>
        · simp_all [fixUsingCross, hF, h2, hedits, hideNotifyS, showNotifyS]
      cases h3 : data2.ok <;>
      · by_cases hcode3 : data.code = "" <;>
        · simp_all [fixUsingCross, hF, h2, hedits, hideNotifyS, showNotifyS]

theorem visionSubmit_notify (o : Oracle) (st : PageState) (m t pr : String)
    (ls : Option String) (h : (visionSubmit o st m t pr ls).threw = false) :
    (visionSubmit o st m t pr ls).state.notifyVisible = false := by
  rcases hR : o.run st.editorCode with _ | runData
  · simp [visionSubmit, hR] at h
  cases hro : runData.ok <;>
  · rcases hV : o.vision st.editorCode pr (imgOrNull ls) m t with _ | visData
    · simp [visionSubmit, hR, hro, hV] at h
    cases hvo : visData.ok
    · simp [visionSubmit, hR, hro, hV, hvo, hideNotifyS, showNotifyS]
    cases hE : visionHasEdits visData.edits
    · simp [visionSubmit, hR, hro, hV, hvo, hE, hideNotifyS, showNotifyS]
    rcases hP : o.apply st.editorCode (visionEditsArr visData.edits) with _ | applyData
    · simp [visionSubmit, hR, hro, hV, hvo, hE, hP] at h
    cases hao : applyData.ok
    · simp [visionSubmit, hR, hro, hV, hvo, hE, hP, hao, hideNotifyS, showNotifyS]
    by_cases hcode : applyData.code = "" <;>
      simp [visionSubmit, hR, hro, hV, hvo, hE, hP, hao, hcode, hideNotifyS, showNotifyS]

/-- C1 counterexample: the claim as stated fails for the vision-driven
apply in `visionSubmit`.  With an oracle whose vision call suggests edits
and whose apply call succeeds with `"newcode"`, the run's trace contains
the SourceText mutation but not a single cross-check call, so
`mutationsChecked` is false. -/
theorem c1_vision_apply_unchecked :
    (visionSubmit visionEditsOracle sampleState "gpt" "30" "fix" none).trace.any
      (setSourceOf "newcode") = true ∧
    (visionSubmit visionEditsOracle sampleState "gpt" "30" "fix" none).trace.any
      isCrossCall = false ∧
    mutationsChecked
      (visionSubmit visionEditsOracle sampleState "gpt" "30" "fix" none).trace = false :=
  ⟨rfl, rfl, rfl⟩

/-- C1 (amended): every successful SourceText mutation in the Analyze
auto-apply chain, the manual Apply chain, and the Fix-from-cross-check
chain is followed by a cross-check call on the newly mutated text before
the run settles; the vision-driven apply in `visionSubmit` is the
exception — that flow never issues a cross-check call at all. -/
theorem c1_mutating_chains_crosschecked :
    (∀ (o : Oracle) (st : PageState) (f m t : String),
      mutationsChecked (analyze o st f m t).trace = true) ∧
    (∀ (o : Oracle) (st : PageState) (p : Except Unit Json) (m t : String),
      mutationsChecked (applyFixes o st p m t).trace = true) ∧
    (∀ (o : Oracle) (st : PageState) (m t : String),
      mutationsChecked (fixUsingCross o st m t).trace = true) ∧
    (∀ (o : Oracle) (st : PageState) (m t pr : String) (ls : Option String),
      (visionSubmit o st m t pr ls).trace.all (fun e => !isCrossCall e) = true) :=
  ⟨fun o st f m t => (analyze_mutations o st f m t).1,
   fun o st p m t => (applyFixes_mutations o st p m t).1,
   fun o st m t => (fixUsingCross_mutations o st m t).1,
   visionSubmit_no_cross⟩

/-- C2 counterexample: a network error in the very first remote call of
`analyze` (the analysis fetch, which sits outside every try block) escapes
with the "Analyzing…" status message still visible. -/
theorem c2_stale_notify_on_first_throw :
    (analyze analyzeThrowOracle sampleState "main.py" "gpt" "30").state.notifyVisible = true ∧
    (analyze analyzeThrowOracle sampleState "main.py" "gpt" "30").threw = true :=
  ⟨rfl, rfl⟩

/-- C2 (amended): the status signal is cleared on every exit that does not
propagate an exception — success, remote `ok=false`, and exceptions inside
the try/finally-guarded cross-check segments (which are caught, so the run
still settles with `threw = false`).  An exception in an unguarded fetch
(the first analyze call, the manual apply call, or any `visionSubmit`
fetch) escapes the run and can leave the message visible. -/
theorem c2_notify_cleared_on_settled_exit :
    (∀ (o : Oracle) (st : PageState) (f m t : String),
      (analyze o st f m t).threw = false →
      (analyze o st f m t).state.notifyVisible = false) ∧
    (∀ (o : Oracle) (st : PageState) (p : Except Unit Json) (m t : String),
      st.notifyVisible = false → (applyFixes o st p m t).threw = false →
      (applyFixes o st p m t).state.notifyVisible = false) ∧
    (∀ (o : Oracle) (st : PageState) (m t : String),
      (fixUsingCross o st m t).state.notifyVisible = false) ∧
    (∀ (o : Oracle) (st : PageState) (m t pr : String) (ls : Option String),
      (visionSubmit o st m t pr ls).threw = false →
      (visionSubmit o st m t pr ls).state.notifyVisible = false) :=
  ⟨analyze_notify, applyFixes_notify, fixUsingCross_notify, visionSubmit_notify⟩

/-- C2 witness: a concrete settled analyze run ends with the signal
hidden. -/
theorem c2_notify_cleared_witness :
    (analyze okOracle sampleState "main.py" "gpt" "30").state.notifyVisible = false :=
  c2_notify_cleared_on_settled_exit.1 okOracle sampleState "main.py" "gpt" "30" rfl

/-- C4: in the Analyze auto-apply chain and the manual Apply chain, after a
successful apply (the `setSource` of the service-returned text) the first
cross-check call of the remainder of the run carries exactly that returned
text — never the pre-apply snapshot. -/
theorem c4_crosscheck_gets_applied_text :
    (∀ (o : Oracle) (st : PageState) (f m t : String),
      checksFreshCode (analyze o st f m t).trace = true) ∧
    (∀ (o : Oracle) (st : PageState) (p : Except Unit Json) (m t : String),
      checksFreshCode (applyFixes o st p m t).trace = true) :=
  ⟨fun o st f m t => (analyze_mutations o st f m t).2,
   fun o st p m t => (applyFixes_mutations o st p m t).2⟩

/-- C8: re-rendering the same report yields a display state identical to a
single render; the renderer resets the list, badge classes, counts and
summary, so no entry of a previous render survives. -/
theorem c8_renderCrosscheck_idempotent (p : CrossResp) (d : Display) :
    renderCrosscheck p (renderCrosscheck p d) = renderCrosscheck p d := rfl

theorem map_extractTest_renderTest (l : List TestOutcome)
    (h : ∀ t ∈ l, t.name ≠ "" ∧ jsTrim t.name = t.name ∧
      jsTrim t.description = t.description ∧ jsTrim t.reason = t.reason ∧
      (t.status = "pass" ∨ t.status = "fail")) :
    (l.map renderTest).map extractTest = l := by
  induction l with
  | nil => rfl
  | cons x xs ih =>
    obtain ⟨hn, hnt, hdt, hrt, hst⟩ := h x (List.mem_cons_self x xs)
    simp only [List.map_cons, extractTest_renderTest x hn hnt hdt hrt hst, List.cons.injEq,
      true_and]
    exact ih fun t ht => h t (List.mem_cons_of_mem x ht)

/-- C3: for a report with non-degenerate labels, extracting the rendered
display reproduces `overall`, `summary`, and every test's name,
description, status and reason exactly (counts are not claimed). -/
theorem c3_extract_render_roundtrip (p : CrossResp) (d : Display)
    (h : nondegenerate p) :
    (extractCross (renderCrosscheck p d)).overall = p.overall ∧
    (extractCross (renderCrosscheck p d)).summary = p.summary ∧
    (extractCross (renderCrosscheck p d)).tests = p.tests := by
  obtain ⟨h1, h2, h3, h4, h5⟩ := h
  refine ⟨?_, ?_, ?_⟩
  · show jsTrim (toLowerStr (if p.overall = "" then "mixed" else p.overall)) = p.overall
    rw [if_neg h1, h2, h3]
  · exact h4
  · show (p.tests.map renderTest).map extractTest = p.tests
    exact map_extractTest_renderTest p.tests h5

/-- C3 witness: the round trip holds at a concrete non-degenerate
report. -/
theorem c3_extract_render_roundtrip_witness :
    nondegenerate sampleCross ∧
    (extractCross (renderCrosscheck sampleCross emptyDisplay)).overall = sampleCross.overall ∧
    (extractCross (renderCrosscheck sampleCross emptyDisplay)).summary = sampleCross.summary ∧
    (extractCross (renderCrosscheck sampleCross emptyDisplay)).tests = sampleCross.tests :=
  ⟨by decide, c3_extract_render_roundtrip sampleCross emptyDisplay (by decide)⟩

/-- C5: when the analysis call succeeds with an empty (or absent) edits
sequence, the run issues no apply call, cross-checks the original
SourceText snapshot, and leaves SourceText unchanged. -/
theorem c5_analyze_empty_edits (o : Oracle) (st : PageState) (f m t : String)
    (data : AnalyzeResp)
    (hA : o.analyze st.editorCode f m t = Except.ok data)
    (hok : data.ok = true)
    (hE : editsNonempty (analyzeEdits data.result) = false) :
    (analyze o st f m t).trace.all (fun e => !isApplyCall e) = true ∧
    (analyze o st f m t).trace.any (crossCallTo st.editorCode) = true ∧
    (analyze o st f m t).state.editorCode = st.editorCode := by
  rcases hC : o.crosscheck st.editorCode m t with _ | data3
  · simp [analyze, hA, hok, hE, hC, isApplyCall, crossCallTo, hideNotifyS, showNotifyS]
  cases h3 : data3.ok <;>
    simp [analyze, hA, hok, hE, hC, h3, isApplyCall, crossCallTo, hideNotifyS, showNotifyS]

/-- C5 witness: a concrete run where analysis returns an empty edits
array. -/
theorem c5_analyze_empty_edits_witness :
    (analyze okOracle sampleState "main.py" "gpt" "30").trace.all
      (fun e => !isApplyCall e) = true ∧
    (analyze okOracle sampleState "main.py" "gpt" "30").trace.any
      (crossCallTo sampleState.editorCode) = true ∧
    (analyze okOracle sampleState "main.py" "gpt" "30").state.editorCode
      = sampleState.editorCode :=
  c5_analyze_empty_edits okOracle sampleState "main.py" "gpt" "30"
    ⟨true, "", Json.obj [("edits", Json.arr [])]⟩ rfl rfl rfl

/-- C6 counterexample: `{"edits": 5}` parses as JSON but is not a mapping
whose `edits` field is a sequence, yet the manual-apply path does not
reject it locally — it issues the remote apply call (forwarding `5` as the
edits), contradicting "zero remote calls" for invalid structured data. -/
theorem c6_malformed_edits_still_sent :
    specValidEdits (Json.obj [("edits", Json.num 5)]) = false ∧
    (applyFixes okOracle sampleState (Except.ok (Json.obj [("edits", Json.num 5)]))
      "gpt" "30").trace.any isRemoteCall = true :=
  ⟨rfl, rfl⟩

/-- C6 (amended): only operator text that fails to parse as JSON is
rejected locally — a synchronous "Invalid JSON in Edits." alert, zero
remote calls, page state untouched.  Text that parses is forwarded to the
remote apply service with its `edits` field (or `[]` when absent or falsy)
regardless of its shape. -/
theorem c6_applyFixes_parse_gate :
    (∀ (o : Oracle) (st : PageState) (m t : String),
      (applyFixes o st (Except.error ()) m t).trace
        = [Event.alertMsg "Invalid JSON in Edits."] ∧
      (applyFixes o st (Except.error ()) m t).trace.any isRemoteCall = false ∧
      (applyFixes o st (Except.error ()) m t).state = st ∧
      (applyFixes o st (Except.error ()) m t).threw = false) ∧
    (∀ (o : Oracle) (st : PageState) (j : Json) (m t : String),
      (applyFixes o st (Except.ok j) m t).trace.head?
        = some (Event.callApply st.editorCode (jsOr (jsGet j "edits") (Json.arr [])))) := by
  refine ⟨fun o st m t => ⟨rfl, rfl, rfl, rfl⟩, fun o st j m t => ?_⟩
  rcases hP : o.apply st.editorCode (jsOr (jsGet j "edits") (Json.arr [])) with _ | data
  · simp [applyFixes, hP]
  cases h2 : data.ok
  · simp [applyFixes, hP, h2]
  rcases hC : o.crosscheck data.code m t with _ | d2
  · simp [applyFixes, hP, h2, hC]
  cases h3 : d2.ok <;> simp [applyFixes, hP, h2, hC, h3]

/-- C7: a failing cross-check (thrown or `ok=false`) after a successful
manual apply is non-fatal: SourceText stays at the applied text, no report
is rendered, the status signal is released, and the run settles without an
unhandled exception. -/
theorem c7_crosscheck_failure_nonfatal (o : Oracle) (st : PageState) (p : Json)
    (m t : String) (data : ApplyResp)
    (hP : o.apply st.editorCode (jsOr (jsGet p "edits") (Json.arr [])) = Except.ok data)
    (hok : data.ok = true)
    (hC : crossFails (o.crosscheck data.code m t)) :
    (applyFixes o st (Except.ok p) m t).state.editorCode = data.code ∧
    (applyFixes o st (Except.ok p) m t).trace.all (fun e => !isRenderEvent e) = true ∧
    (applyFixes o st (Except.ok p) m t).state.notifyVisible = false ∧
    (applyFixes o st (Except.ok p) m t).threw = false := by
  rcases hC with hC | ⟨c, hC, hco⟩
  · simp [applyFixes, hP, hok, hC, isRenderEvent, hideNotifyS, showNotifyS]
  · simp [applyFixes, hP, hok, hC, hco, isRenderEvent, hideNotifyS, showNotifyS]

/-- C7 witness: a concrete run where the apply succeeds with `"fixed"` and
the cross-check call throws. -/
theorem c7_crosscheck_failure_nonfatal_witness :
    (applyFixes crossFailOracle sampleState
      (Except.ok (Json.obj [("edits", Json.arr [Json.num 1])])) "gpt" "30").state.editorCode
      = "fixed" ∧
    (applyFixes crossFailOracle sampleState
      (Except.ok (Json.obj [("edits", Json.arr [Json.num 1])])) "gpt" "30").trace.all
      (fun e => !isRenderEvent e) = true ∧
    (applyFixes crossFailOracle sampleState
      (Except.ok (Json.obj [("edits", Json.arr [Json.num 1])])) "gpt" "30").state.notifyVisible
      = false ∧
    (applyFixes crossFailOracle sampleState
      (Except.ok (Json.obj [("edits", Json.arr [Json.num 1])])) "gpt" "30").threw = false :=
  c7_crosscheck_failure_nonfatal crossFailOracle sampleState
    (Json.obj [("edits", Json.arr [Json.num 1])]) "gpt" "30"
    ⟨true, "", "fixed"⟩ rfl rfl (Or.inl rfl)

/-- C9 counterexample: a network error in the run call is fatal to the
whole `visionSubmit` chain — the run rejects, and the vision call never
happens — contradicting "a Run failure is never fatal (the vision call
still happens)". -/
theorem c9_run_throw_is_fatal :
    (visionSubmit runThrowOracle sampleState "gpt" "30" "compare" none).threw = true ∧
    (visionSubmit runThrowOracle sampleState "gpt" "30" "compare" none).trace.any
      isVisionCall = false :=
  ⟨rfl, rfl⟩

/-- C9 (amended): `visionSubmit` calls Run first; when the run call
*returns* (even with `ok=false`, which is only surfaced as a status
message), the vision call always follows, carrying the stored screenshot
or a null image; and when the vision result carries no non-empty edits
sequence, the run issues no apply and no cross-check call and shows the
"No changes suggested from vision." status.  (A *thrown* run call, by
contrast, aborts the chain — see the counterexample.) -/
theorem c9_visionSubmit_chain (o : Oracle) (st : PageState) (m t pr : String)
    (ls : Option String) (rd : RunResp)
    (hR : o.run st.editorCode = Except.ok rd) :
    (visionSubmit o st m t pr ls).trace.head? = some (Event.callRun st.editorCode) ∧
    (visionSubmit o st m t pr ls).trace.any
      (visionCallWith st.editorCode pr (imgOrNull ls) m t) = true ∧
    (rd.ok = false →
      (visionSubmit o st m t pr ls).trace.any
        (showOf ("Run error: " ++ orUnknown rd.error)) = true) ∧
    (∀ vd : VisionResp, o.vision st.editorCode pr (imgOrNull ls) m t = Except.ok vd →
      vd.ok = true → visionHasEdits vd.edits = false →
      (visionSubmit o st m t pr ls).trace.all
        (fun e => !isApplyCall e && !isCrossCall e) = true ∧
      (visionSubmit o st m t pr ls).trace.any (showOf noChangesMsg) = true) := by
  refine ⟨?_, ?_, ?_, ?_⟩
  · cases hro : rd.ok <;>
    · rcases hV : o.vision st.editorCode pr (imgOrNull ls) m t with _ | visData
      · simp [visionSubmit, hR, hro, hV]
      cases hvo : visData.ok
      · simp [visionSubmit, hR, hro, hV, hvo]
      cases hE : visionHasEdits visData.edits
      · simp [visionSubmit, hR, hro, hV, hvo, hE]
      rcases hP : o.apply st.editorCode (visionEditsArr visData.edits) with _ | applyData
      · simp [visionSubmit, hR, hro, hV, hvo, hE, hP]
      cases hao : applyData.ok
      · simp [visionSubmit, hR, hro, hV, hvo, hE, hP, hao]
      by_cases hcode : applyData.code = "" <;>
        simp [visionSubmit, hR, hro, hV, hvo, hE, hP, hao, hcode]
  · cases hro : rd.ok <;>
    · rcases hV : o.vision st.editorCode pr (imgOrNull ls) m t with _ | visData
      · simp [visionSubmit, hR, hro, hV, visionCallWith]
      cases hvo : visData.ok
      · simp [visionSubmit, hR, hro, hV, hvo, visionCallWith]
      cases hE : visionHasEdits visData.edits
      · simp [visionSubmit, hR, hro, hV, hvo, hE, visionCallWith]
      rcases hP : o.apply st.editorCode (visionEditsArr visData.edits) with _ | applyData
      · simp [visionSubmit, hR, hro, hV, hvo, hE, hP, visionCallWith]
      cases hao : applyData.ok
      · simp [visionSubmit, hR, hro, hV, hvo, hE, hP, hao, visionCallWith]
      by_cases hcode : applyData.code = "" <;>
        simp [visionSubmit, hR, hro, hV, hvo, hE, hP, hao, hcode, visionCallWith]
  · intro hro
    rcases hV : o.vision st.editorCode pr (imgOrNull ls) m t with _ | visData
    · simp [visionSubmit, hR, hro, hV, showOf]
    cases hvo : visData.ok
    · simp [visionSubmit, hR, hro, hV, hvo, showOf]
    cases hE : visionHasEdits visData.edits
    · simp [visionSubmit, hR, hro, hV, hvo, hE, showOf]
    rcases hP : o.apply st.editorCode (visionEditsArr visData.edits) with _ | applyData
    · simp [visionSubmit, hR, hro, hV, hvo, hE, hP, showOf]
    cases hao : applyData.ok
    · simp [visionSubmit, hR, hro, hV, hvo, hE, hP, hao, showOf]
    by_cases hcode : applyData.code = "" <;>
      simp [visionSubmit, hR, hro, hV, hvo, hE, hP, hao, hcode, showOf]
  · intro vd hV hvo hE
    cases hro : rd.ok <;>
      simp [visionSubmit, hR, hro, hV, hvo, hE, showOf, isApplyCall, isCrossCall]

/-- C9 witness: a concrete run where the run call answers `ok=false` and
the vision result suggests nothing. -/
theorem c9_visionSubmit_chain_witness :
    (visionSubmit runFailOracle sampleState "gpt" "30" "compare" none).trace.head?
      = some (Event.callRun sampleState.editorCode) ∧
    (visionSubmit runFailOracle sampleState "gpt" "30" "compare" none).trace.any
      (visionCallWith sampleState.editorCode "compare" (imgOrNull none) "gpt" "30") = true ∧
    (visionSubmit runFailOracle sampleState "gpt" "30" "compare" none).trace.any
      (showOf ("Run error: " ++ orUnknown "boom")) = true ∧
    (visionSubmit runFailOracle sampleState "gpt" "30" "compare" none).trace.all
      (fun e => !isApplyCall e && !isCrossCall e) = true ∧
    (visionSubmit runFailOracle sampleState "gpt" "30" "compare" none).trace.any
      (showOf noChangesMsg) = true := by
  have h := c9_visionSubmit_chain runFailOracle sampleState "gpt" "30" "compare" none
    ⟨false, "boom"⟩ rfl
  have h4 := h.2.2.2 ⟨true, "", Json.null, ""⟩ rfl rfl rfl
  exact ⟨h.1, h.2.1, h.2.2.1 rfl, h4.1, h4.2⟩

theorem flatMap_escChar_id (l : List Char)
    (h : ∀ c ∈ l, c ≠ '&' ∧ c ≠ '<' ∧ c ≠ '>' ∧ c ≠ '"') :
    l.flatMap escChar = l := by
  induction l with
  | nil => rfl
  | cons c t ih =>
    obtain ⟨h1, h2, h3, h4⟩ := h c (List.mem_cons_self c t)
    have e1 : escChar c = [c] := by
      unfold escChar
      rw [if_neg h1, if_neg h2, if_neg h3, if_neg h4]
    rw [List.flatMap_cons, e1, List.singleton_append]
    exact congrArg (c :: ·) (ih fun x hx => h x (List.mem_cons_of_mem c hx))

/-- C10: the renderer passes every per-test name, description and reason
through `escapeHtml`; decoding the escaped markup (what `textContent`
yields) restores the original string for every input; the escaped markup
never contains a raw `<`, `>` or `"`, so no report string can inject
markup; and strings free of the four special characters pass through
unchanged. -/
theorem c10_escapeHtml_report_safety :
    (∀ s : String, htmlUnescape (escapeHtml s) = s) ∧
    (∀ (s : String) (x : Char), x ∈ (escapeHtml s).data →
      x ≠ '<' ∧ x ≠ '>' ∧ x ≠ '"') ∧
    (∀ s : String, (∀ c ∈ s.data, c ≠ '&' ∧ c ≠ '<' ∧ c ≠ '>' ∧ c ≠ '"') →
      escapeHtml s = s) ∧
    (∀ t : TestOutcome,
      (renderTest t).nameMarkup = escapeHtml (if t.name = "" then "Test" else t.name) ∧
      (renderTest t).descMarkup = escapeHtml t.description ∧
      (renderTest t).reasonMarkup = escapeHtml t.reason ∧
      htmlUnescape (renderTest t).descMarkup = t.description ∧
      htmlUnescape (renderTest t).reasonMarkup = t.reason) :=
  ⟨htmlUnescape_escapeHtml, escapeHtml_no_markup,
   fun s h => congrArg String.mk (flatMap_escChar_id s.data h),
   fun t => ⟨rfl, rfl, rfl, htmlUnescape_escapeHtml t.description,
     htmlUnescape_escapeHtml t.reason⟩⟩

/-- C10 witness: decoding the escaped form of a markup-laden string
restores it, and the escape of `"<"` contains only non-markup
characters such as the entity ampersand. -/
theorem c10_escapeHtml_report_safety_witness :
    htmlUnescape (escapeHtml "<b>\"A&B\"</b>") = "<b>\"A&B\"</b>" ∧
    ('&' ≠ '<' ∧ '&' ≠ '>' ∧ '&' ≠ '"') :=
  ⟨c10_escapeHtml_report_safety.1 _,
   c10_escapeHtml_report_safety.2.1 "<" '&' (by decide)⟩

end Debugger

